import Mathlib

/-!
Shallow embedding of `src/src/account/account_repository_db.cpp`
(class `AccountRepositoryDB` of the Canary server).

The relational store is modelled as explicit tables (`DB`), the external
collaborators (current time, write-query outcome, one-way digest) as an
environment record (`Env`), and every gateway operation as a pure Lean
function returning its result, the updated store, and a trace of the
store/logging events it issued.  The store's query-and-fetch call
(`Database::storeQuery`) returns "no result handle" both on failure and on
an empty result set; it is modelled by a row lookup returning `none`
exactly when no row matches.
-/

namespace AccountRepositoryDB

/-- A row of the `accounts` table: the columns this gateway consumes
(`id, type, premdays, lastday, creation, premdays_purchased, password,
email, name` plus one column per coin type). -/
structure AccountRow where
  id : Nat
  type : Nat
  premdays : Nat
  lastday : Int
  creation : Nat
  premdays_purchased : Nat
  password : String
  email : String
  name : String
  coins : Nat
  tournament_coins : Nat
  coins_transferable : Nat
deriving Repr, DecidableEq

/-- A row of the `players` table (columns `account_id`, `name`, `deletion`). -/
structure PlayerRow where
  account_id : Nat
  name : String
  deletion : Nat
deriving Repr, DecidableEq

/-- A row of the `account_sessions` table: `id` holds the digest of the
session token, plus `account_id` and `expires`. -/
structure SessionRow where
  id : String
  account_id : Nat
  expires : Int
deriving Repr, DecidableEq

/-- The backing store: the three tables the modelled operations touch. -/
structure DB where
  accounts : List AccountRow
  players : List PlayerRow
  sessions : List SessionRow
deriving Repr, DecidableEq

/-- External collaborators of the gateway: `getTimeNow()`, the outcome the
store reports for write queries (`Database::executeQuery`), and the one-way
digest `transformToSHA1` (its implementation is outside this translation
unit, so it is carried as an abstract function). -/
structure Env where
  now : Int
  execOk : Bool
  sha1 : String → String

/-- Events observable at the store/logging boundary: a read query issued
(`storeQuery`), a write query issued (`executeQuery`), an error logged. -/
inductive DBEvent where
  | storeQuery : DBEvent
  | execQuery : DBEvent
  | logError : DBEvent
deriving Repr, DecidableEq

/-- The in-memory `AccountInfo` record populated by `load`.  Its fields are
the ones this translation unit reads and writes; `players` is the account's
player set.  Modelled from the spec: the container holding `players` is not
in `src/`; per the spec it is keyed by name with first-insert-wins map
semantics and is modelled as a list of `(name, deletionTimestamp)` entries
in insertion order. -/
structure AccountInfo where
  id : Nat
  accountType : Nat
  premiumLastDay : Int
  sessionExpires : Int
  premiumDaysPurchased : Nat
  creationTime : Nat
  premiumRemainingDays : Nat
  players : List (String × Nat)
deriving Repr, DecidableEq

/-- Modelled from the spec: the `CoinType` enumeration (its header
`enums/account_coins.hpp` is not in `src/`).  The spec fixes the closed set
`Normal`, `Tournament`, `Transferable`; the numeric encoding below is a
representative injective assignment — every claim using it depends only on
membership in the column mapping, not on the chosen numbers. -/
inductive CoinType where
  | Normal : CoinType
  | Tournament : CoinType
  | Transferable : CoinType
deriving Repr, DecidableEq

/-- Modelled from the spec: `enumToValue` for `CoinType` (numeric values of
the enumerators are not in `src/`; any injective assignment serves). -/
def enumToValue : CoinType → Nat
  | CoinType.Normal => 1
  | CoinType.Tournament => 2
  | CoinType.Transferable => 3

/-- The fixed `CoinType → column name` mapping frozen at construction
(constructor, source lines 21-22). -/
def coinTypeToColumn : List (Nat × String) :=
  [(enumToValue CoinType.Normal, "coins"),
   (enumToValue CoinType.Tournament, "tournament_coins"),
   (enumToValue CoinType.Transferable, "coins_transferable")]

/-- Reading the named coin column out of an `accounts` row. -/
def coinColumnValue (col : String) (r : AccountRow) : Nat :=
  if col = "coins" then r.coins
  else if col = "tournament_coins" then r.tournament_coins
  else if col = "coins_transferable" then r.coins_transferable
  else 0

/-- Writing the named coin column of an `accounts` row. -/
def setCoinColumn (col : String) (amount : Nat) (r : AccountRow) : AccountRow :=
  if col = "coins" then { r with coins := amount }
  else if col = "tournament_coins" then { r with tournament_coins := amount }
  else if col = "coins_transferable" then { r with coins_transferable := amount }
  else r

/-- Result of `save`: reported success, the store afterwards, trace. -/
structure SaveResult where
  ok : Bool
  db : DB
  trace : List DBEvent
deriving Repr, DecidableEq

/-- The row update performed by `save`'s UPDATE statement: on the row whose
`id` matches, set `type`, `premdays`, `lastday`, `creation`,
`premdays_purchased` from the record; every other row is untouched
(source lines 46-57). -/
def updateAccountRow (acc : AccountInfo) (r : AccountRow) : AccountRow :=
  if r.id = acc.id then
    { r with
      type := acc.accountType
      premdays := acc.premiumRemainingDays
      lastday := acc.premiumLastDay
      creation := acc.creationTime
      premdays_purchased := acc.premiumDaysPurchased }
  else r

/-- `AccountRepositoryDB::save` (source lines 46-64): one UPDATE keyed by
`accInfo.id`; on store failure the row set is unchanged and an error is
logged; the store's outcome is returned unchanged. -/
def save (env : Env) (db : DB) (acc : AccountInfo) : SaveResult :=
  if env.execOk then
    { ok := true
      db := { db with accounts := db.accounts.map (updateAccountRow acc) }
      trace := [DBEvent.execQuery] }
  else
    { ok := false, db := db, trace := [DBEvent.execQuery, DBEvent.logError] }

/-- Result of `setupLoyaltyInfo`: the record afterwards, store, trace. -/
structure LoyaltyResult where
  acc : AccountInfo
  db : DB
  trace : List DBEvent
deriving Repr, DecidableEq

/-- `AccountRepositoryDB::setupLoyaltyInfo` (source lines 201-215): early
return when `premdays_purchased ≥ premiumRemainingDays` and
`creationTime ≠ 0`; otherwise raise `premiumDaysPurchased`, default
`creationTime` to `getTimeNow()` (stored into an unsigned field, hence
`Int.toNat`), and persist via `save`, discarding its outcome. -/
def setupLoyaltyInfo (env : Env) (db : DB) (acc : AccountInfo) : LoyaltyResult :=
  if acc.premiumRemainingDays ≤ acc.premiumDaysPurchased ∧ acc.creationTime ≠ 0 then
    { acc := acc, db := db, trace := [] }
  else
    let acc1 :=
      if acc.premiumDaysPurchased < acc.premiumRemainingDays then
        { acc with premiumDaysPurchased := acc.premiumRemainingDays }
      else acc
    let acc2 :=
      if acc1.creationTime = 0 then { acc1 with creationTime := env.now.toNat } else acc1
    let s := save env db acc2
    { acc := acc2, db := s.db, trace := s.trace }

/-- Result of `loadAccountPlayers`: success, the record (its `players`
possibly extended), trace.  The store itself is read-only here. -/
structure PlayersResult where
  ok : Bool
  acc : AccountInfo
  trace : List DBEvent
deriving Repr, DecidableEq

/-- `players.try_emplace({name, deletion})`: insert keyed by name,
first-insert-wins (an entry whose name is already present is dropped). -/
def tryEmplace (players : List (String × Nat)) (name : String) (deletion : Nat) :
    List (String × Nat) :=
  if players.any (fun e => e.1 = name) then players else players ++ [(name, deletion)]

/-- The row loop of `loadAccountPlayers` (source lines 170-176): rows with
nonzero `deletion` are skipped, the rest are inserted via `try_emplace`. -/
def processPlayerRows (players : List (String × Nat)) (rows : List PlayerRow) :
    List (String × Nat) :=
  rows.foldl
    (fun ps p => if p.deletion ≠ 0 then ps else tryEmplace ps p.name p.deletion) players

/-- The rows the player query returns for an account: the `players` rows
with matching `account_id`, ordered by `name` ascending (ORDER BY of the
query on source line 162; a stable sort under the lexicographic order on
the name's character sequence models the SQL ordering). -/
def playerQueryRows (db : DB) (accId : Nat) : List PlayerRow :=
  List.insertionSort (fun a b => a.name.data ≤ b.name.data)
    (db.players.filter (fun p => p.account_id == accId))

/-- `AccountRepositoryDB::loadAccountPlayers` (source lines 160-179): the
store returns no handle when no row matches (failure is logged); otherwise
every surviving row is inserted into the record's player set. -/
def loadAccountPlayers (db : DB) (acc : AccountInfo) : PlayersResult :=
  let rows := playerQueryRows db acc.id
  if rows.isEmpty then
    { ok := false, acc := acc, trace := [DBEvent.storeQuery, DBEvent.logError] }
  else
    { ok := true
      acc := { acc with players := processPlayerRows acc.players rows }
      trace := [DBEvent.storeQuery] }

/-- The fixed column set every account query selects
(`id, type, premdays, lastday, creation, premdays_purchased, expires`). -/
structure AccountResultRow where
  id : Nat
  type : Nat
  premdays : Nat
  lastday : Int
  creation : Nat
  premdays_purchased : Nat
  expires : Int
deriving Repr, DecidableEq

/-- Projection of an `accounts` row onto the selected column set; the two
non-session lookups select the literal `0 AS expires`. -/
def accountRowToResult (r : AccountRow) (expires : Int) : AccountResultRow :=
  { id := r.id
    type := r.type
    premdays := r.premdays
    lastday := r.lastday
    creation := r.creation
    premdays_purchased := r.premdays_purchased
    expires := expires }

/-- Result of the shared `load` routine and of the three lookups. -/
structure LoadResult where
  ok : Bool
  acc : AccountInfo
  db : DB
  trace : List DBEvent
deriving Repr, DecidableEq

/-- The column-to-field mapping of `load` (source lines 188-194),
recomputing `premiumRemainingDays` from `lastday` and `getTimeNow()`
(source line 194: zero unless `lastday > now`, else the positive
difference divided by 86400; the stored `premdays` column is never read
into it). -/
def mapAccountColumns (env : Env) (row : AccountResultRow) (acc : AccountInfo) :
    AccountInfo :=
  { acc with
    id := row.id
    accountType := row.type
    premiumLastDay := row.lastday
    sessionExpires := row.expires
    premiumDaysPurchased := row.premdays_purchased
    creationTime := row.creation
    premiumRemainingDays :=
      if row.lastday > env.now then (row.lastday - env.now).toNat / 86400 else 0 }

/-- `AccountRepositoryDB::load` (source lines 181-199), taking the account
query's fetch outcome (`none` = no result handle): fail fast on no handle;
otherwise map the columns into the record, run `setupLoyaltyInfo`, then
`loadAccountPlayers`; the overall outcome is the player fetch's outcome. -/
def load (env : Env) (db : DB) (res : Option AccountResultRow) (acc : AccountInfo) :
    LoadResult :=
  match res with
  | none => { ok := false, acc := acc, db := db, trace := [DBEvent.storeQuery] }
  | some row =>
    let acc1 := mapAccountColumns env row acc
    let lo := setupLoyaltyInfo env db acc1
    let pl := loadAccountPlayers lo.db lo.acc
    { ok := pl.ok, acc := pl.acc, db := lo.db
      trace := DBEvent.storeQuery :: (lo.trace ++ pl.trace) }

/-- The account query of `loadByID` (source line 25): first row with the
given primary key, `0 AS expires`. -/
def queryByID (db : DB) (id : Nat) : Option AccountResultRow :=
  (db.accounts.find? (fun r => r.id == id)).map (fun r => accountRowToResult r 0)

/-- `AccountRepositoryDB::loadByID` (source lines 24-27). -/
def loadByID (env : Env) (db : DB) (id : Nat) (acc : AccountInfo) : LoadResult :=
  load env db (queryByID db id) acc

/-- The account query of `loadByEmailOrName` (source lines 29-32): the
lookup column is `name` under the old protocol, `email` otherwise. -/
def queryByEmailOrName (db : DB) (oldProtocol : Bool) (emailOrName : String) :
    Option AccountResultRow :=
  (db.accounts.find?
      (fun r => (if oldProtocol then r.name else r.email) == emailOrName)).map
    (fun r => accountRowToResult r 0)

/-- `AccountRepositoryDB::loadByEmailOrName` (source lines 29-33). -/
def loadByEmailOrName (env : Env) (db : DB) (oldProtocol : Bool) (emailOrName : String)
    (acc : AccountInfo) : LoadResult :=
  load env db (queryByEmailOrName db oldProtocol emailOrName) acc

/-- The session join of `loadBySession` (source lines 36-42): the session
row keyed by the digest of the token, joined to its account; the join
yields the session's `expires`. -/
def queryBySession (env : Env) (db : DB) (sessionKey : String) :
    Option AccountResultRow :=
  match db.sessions.find? (fun s => s.id == env.sha1 sessionKey) with
  | none => none
  | some s =>
    (db.accounts.find? (fun r => r.id == s.account_id)).map
      (fun r => accountRowToResult r s.expires)

/-- `AccountRepositoryDB::loadBySession` (source lines 35-44). -/
def loadBySession (env : Env) (db : DB) (sessionKey : String) (acc : AccountInfo) :
    LoadResult :=
  load env db (queryBySession env db sessionKey) acc

/-- Result of `getCoins`: `none` models the `false` return (the out
parameter not delivered); reads leave the store unchanged. -/
structure GetCoinsResult where
  coins : Option Nat
  trace : List DBEvent
deriving Repr, DecidableEq

/-- `AccountRepositoryDB::getCoins` (source lines 87-106): unknown coin
type is rejected with a logged error before any query; otherwise the mapped
column of the account's row is selected. -/
def getCoins (db : DB) (id : Nat) (type : Nat) : GetCoinsResult :=
  match coinTypeToColumn.find? (fun p => p.1 == type) with
  | none => { coins := none, trace := [DBEvent.logError] }
  | some p =>
    match db.accounts.find? (fun r => r.id == id) with
    | none => { coins := none, trace := [DBEvent.storeQuery] }
    | some r => { coins := some (coinColumnValue p.2 r), trace := [DBEvent.storeQuery] }

/-- Result of `setCoins`. -/
structure SetCoinsResult where
  ok : Bool
  db : DB
  trace : List DBEvent
deriving Repr, DecidableEq

/-- `AccountRepositoryDB::setCoins` (source lines 108-126): unknown coin
type is rejected with a logged error before any query; otherwise one UPDATE
of the mapped column keyed by `id`, with the store's outcome returned and a
logged error on failure. -/
def setCoins (env : Env) (db : DB) (id : Nat) (type : Nat) (amount : Nat) :
    SetCoinsResult :=
  match coinTypeToColumn.find? (fun p => p.1 == type) with
  | none => { ok := false, db := db, trace := [DBEvent.logError] }
  | some p =>
    if env.execOk then
      { ok := true
        db := { db with
          accounts := db.accounts.map
            (fun r => if r.id == id then setCoinColumn p.2 amount r else r) }
        trace := [DBEvent.execQuery] }
    else
      { ok := false, db := db, trace := [DBEvent.execQuery, DBEvent.logError] }

/-- Result of `getCharacterByAccountIdAndName` (a pure read). -/
structure CharCheckResult where
  ok : Bool
  trace : List DBEvent
deriving Repr, DecidableEq

/-- `AccountRepositoryDB::getCharacterByAccountIdAndName` (source lines
66-74): the rows matching account id and name are fetched (no filter on
`deletion`); no handle (no row) is a logged failure; otherwise the result
is `countResults() == 1`. -/
def getCharacterByAccountIdAndName (db : DB) (id : Nat) (name : String) :
    CharCheckResult :=
  let rows := db.players.filter (fun p => p.account_id == id && p.name == name)
  if rows.isEmpty then
    { ok := false, trace := [DBEvent.storeQuery, DBEvent.logError] }
  else
    { ok := rows.length == 1, trace := [DBEvent.storeQuery] }

/-- The spec's formula for the derived premium days, written from the
spec's words for comparison with the code's computation:
`max(0, floor((premiumLastDay - now) / 86400))`. -/
def premiumRemainingDaysSpecFormula (premiumLastDay now : Int) : Int :=
  max 0 ((premiumLastDay - now).fdiv 86400)

instance : IsTotal PlayerRow (fun a b => a.name.data ≤ b.name.data) :=
  ⟨fun a b => le_total a.name.data b.name.data⟩

instance : IsTrans PlayerRow (fun a b => a.name.data ≤ b.name.data) :=
  ⟨fun _ _ _ h1 h2 => le_trans h1 h2⟩

/-- `setupLoyaltyInfo` touches only `premiumDaysPurchased` and
`creationTime` of the record. -/
theorem loyalty_acc_frame (env : Env) (db : DB) (acc : AccountInfo) :
    (setupLoyaltyInfo env db acc).acc.id = acc.id ∧
    (setupLoyaltyInfo env db acc).acc.accountType = acc.accountType ∧
    (setupLoyaltyInfo env db acc).acc.premiumLastDay = acc.premiumLastDay ∧
    (setupLoyaltyInfo env db acc).acc.sessionExpires = acc.sessionExpires ∧
    (setupLoyaltyInfo env db acc).acc.premiumRemainingDays = acc.premiumRemainingDays ∧
    (setupLoyaltyInfo env db acc).acc.players = acc.players := by
  unfold setupLoyaltyInfo
  split
  · simp
  · dsimp only
    split <;> split <;> simp

/-- After `setupLoyaltyInfo`, the loyalty policy holds (for a positive
clock, since `creationTime` is defaulted to the current time). -/
theorem loyalty_invariant (env : Env) (db : DB) (acc : AccountInfo) (hnow : 0 < env.now) :
    (setupLoyaltyInfo env db acc).acc.premiumRemainingDays
        ≤ (setupLoyaltyInfo env db acc).acc.premiumDaysPurchased ∧
    (setupLoyaltyInfo env db acc).acc.creationTime ≠ 0 := by
  unfold setupLoyaltyInfo
  split
  · next h => simpa using h
  · next h =>
    dsimp only
    split <;> split <;> simp_all


/-- A record already satisfying the loyalty policy makes
`setupLoyaltyInfo` a complete no-op. -/
theorem loyalty_noop (env : Env) (db : DB) (acc : AccountInfo)
    (h1 : acc.premiumRemainingDays ≤ acc.premiumDaysPurchased)
    (h2 : acc.creationTime ≠ 0) :
    setupLoyaltyInfo env db acc = { acc := acc, db := db, trace := [] } := by
  unfold setupLoyaltyInfo
  rw [if_pos ⟨h1, h2⟩]

/-- `setupLoyaltyInfo` never touches the `players` or `account_sessions`
tables of the store. -/
theorem loyalty_db_frame (env : Env) (db : DB) (acc : AccountInfo) :
    (setupLoyaltyInfo env db acc).db.players = db.players ∧
    (setupLoyaltyInfo env db acc).db.sessions = db.sessions := by
  unfold setupLoyaltyInfo save
  split
  · simp
  · dsimp only
    split <;> simp

/-- The record produced by `setupLoyaltyInfo` does not depend on the
outcome the store reports for the write-back. -/
theorem loyalty_acc_execOk (env : Env) (db : DB) (acc : AccountInfo) (b : Bool) :
    (setupLoyaltyInfo { env with execOk := b } db acc).acc
      = (setupLoyaltyInfo env db acc).acc := by
  unfold setupLoyaltyInfo save
  split
  · simp
  · rfl

/-- `loadAccountPlayers` touches only the `players` field of the record. -/
theorem players_acc_frame (db : DB) (acc : AccountInfo) :
    (loadAccountPlayers db acc).acc.id = acc.id ∧
    (loadAccountPlayers db acc).acc.accountType = acc.accountType ∧
    (loadAccountPlayers db acc).acc.premiumLastDay = acc.premiumLastDay ∧
    (loadAccountPlayers db acc).acc.sessionExpires = acc.sessionExpires ∧
    (loadAccountPlayers db acc).acc.premiumDaysPurchased = acc.premiumDaysPurchased ∧
    (loadAccountPlayers db acc).acc.creationTime = acc.creationTime ∧
    (loadAccountPlayers db acc).acc.premiumRemainingDays = acc.premiumRemainingDays := by
  simp only [loadAccountPlayers]
  split <;> simp

/-- The player query reads only the `players` table. -/
theorem playerQueryRows_congr (db1 db2 : DB) (accId : Nat)
    (h : db1.players = db2.players) :
    playerQueryRows db1 accId = playerQueryRows db2 accId := by
  unfold playerQueryRows
  rw [h]

/-- Unfolding `load` on a fetched row. -/
theorem load_some_eq (env : Env) (db : DB) (row : AccountResultRow) (acc : AccountInfo) :
    load env db (some row) acc
      = { ok := (loadAccountPlayers (setupLoyaltyInfo env db (mapAccountColumns env row acc)).db
                  (setupLoyaltyInfo env db (mapAccountColumns env row acc)).acc).ok
          acc := (loadAccountPlayers (setupLoyaltyInfo env db (mapAccountColumns env row acc)).db
                  (setupLoyaltyInfo env db (mapAccountColumns env row acc)).acc).acc
          db := (setupLoyaltyInfo env db (mapAccountColumns env row acc)).db
          trace := DBEvent.storeQuery ::
            ((setupLoyaltyInfo env db (mapAccountColumns env row acc)).trace
              ++ (loadAccountPlayers (setupLoyaltyInfo env db (mapAccountColumns env row acc)).db
                  (setupLoyaltyInfo env db (mapAccountColumns env row acc)).acc).trace) } :=
  rfl

/-- Fields of the record a successful fetch populates that survive both
reconciliation and the player-list load. -/
theorem load_some_acc_fields (env : Env) (db : DB) (row : AccountResultRow)
    (acc : AccountInfo) :
    (load env db (some row) acc).acc.premiumLastDay = row.lastday ∧
    (load env db (some row) acc).acc.premiumRemainingDays
      = (mapAccountColumns env row acc).premiumRemainingDays ∧
    (load env db (some row) acc).acc.id = row.id := by
  obtain ⟨p1, p2, p3, p4, p5, p6, p7⟩ :=
    players_acc_frame (setupLoyaltyInfo env db (mapAccountColumns env row acc)).db
      (setupLoyaltyInfo env db (mapAccountColumns env row acc)).acc
  obtain ⟨l1, l2, l3, l4, l5, l6⟩ := loyalty_acc_frame env db (mapAccountColumns env row acc)
  refine ⟨?_, ?_, ?_⟩ <;> rw [load_some_eq] <;> dsimp only
  · rw [p3, l3]
    rfl
  · rw [p7, l5]
  · rw [p1, l1]
    rfl

/-- A digest stand-in for witnesses; the gateway treats the digest as an
opaque string-to-string function. -/
def wSha : String → String := fun s => s

/-- A concrete environment for witnesses (positive clock, writes succeed). -/
def wEnv : Env := { now := 1000, execOk := true, sha1 := wSha }

/-- A concrete environment for witnesses in which write queries fail. -/
def wEnvFail : Env := { now := 1000, execOk := false, sha1 := wSha }

/-- A blank caller-supplied record for witnesses. -/
def wAcc : AccountInfo :=
  { id := 0, accountType := 0, premiumLastDay := 0, sessionExpires := 0
    premiumDaysPurchased := 0, creationTime := 0, premiumRemainingDays := 0
    players := [] }

/-- An already-consistent record for witnesses. -/
def wAccCons : AccountInfo :=
  { id := 7, accountType := 1, premiumLastDay := 0, sessionExpires := 0
    premiumDaysPurchased := 3, creationTime := 500, premiumRemainingDays := 2
    players := [] }

/-- A stored account row for witnesses: `lastday` five days past `wEnv.now`,
nothing purchased, creation unset. -/
def wRow7 : AccountRow :=
  { id := 7, type := 1, premdays := 0, lastday := 433000, creation := 0
    premdays_purchased := 0, password := "pw", email := "seven@ex", name := "seven"
    coins := 10, tournament_coins := 0, coins_transferable := 0 }

/-- A surviving player row of account 7 for witnesses. -/
def wPlayerA : PlayerRow := { account_id := 7, name := "alice", deletion := 0 }

/-- A soft-deleted player row of account 7 for witnesses. -/
def wPlayerB : PlayerRow := { account_id := 7, name := "bob", deletion := 5 }

/-- A concrete store for witnesses. -/
def wDB : DB := { accounts := [wRow7], players := [wPlayerA, wPlayerB], sessions := [] }

/-- An empty store for witnesses. -/
def wDBempty : DB := { accounts := [], players := [], sessions := [] }

/-- C3: after loyalty reconciliation (`setupLoyaltyInfo`) has run on an
account record — and hence after every successful `load` — the record
satisfies `premiumDaysPurchased ≥ premiumRemainingDays` and
`creationTime ≠ 0` (for a positive current time, which is what
`creationTime` is defaulted to). -/
theorem setupLoyaltyInfo_establishes_invariant (env : Env) (db db2 : DB)
    (acc acc2 : AccountInfo) (res : Option AccountResultRow) (hnow : 0 < env.now) :
    ((setupLoyaltyInfo env db acc).acc.premiumRemainingDays
        ≤ (setupLoyaltyInfo env db acc).acc.premiumDaysPurchased
      ∧ (setupLoyaltyInfo env db acc).acc.creationTime ≠ 0)
    ∧ ((load env db2 res acc2).ok = true →
        (load env db2 res acc2).acc.premiumRemainingDays
            ≤ (load env db2 res acc2).acc.premiumDaysPurchased
          ∧ (load env db2 res acc2).acc.creationTime ≠ 0) := by
  refine ⟨loyalty_invariant env db acc hnow, ?_⟩
  intro hok
  cases res with
  | none => simp [load] at hok
  | some row =>
    obtain ⟨p1, p2, p3, p4, p5, p6, p7⟩ :=
      players_acc_frame (setupLoyaltyInfo env db2 (mapAccountColumns env row acc2)).db
        (setupLoyaltyInfo env db2 (mapAccountColumns env row acc2)).acc
    obtain ⟨i1, i2⟩ := loyalty_invariant env db2 (mapAccountColumns env row acc2) hnow
    constructor
    · rw [load_some_eq]
      dsimp only
      rw [p7, p5]
      exact i1
    · rw [load_some_eq]
      dsimp only
      rw [p6]
      exact i2

/-- C3 witness: the theorem applied at a concrete input. -/
theorem setupLoyaltyInfo_establishes_invariant_witness :
    (0 : Int) < wEnv.now
    ∧ (((setupLoyaltyInfo wEnv wDB wAcc).acc.premiumRemainingDays
          ≤ (setupLoyaltyInfo wEnv wDB wAcc).acc.premiumDaysPurchased
        ∧ (setupLoyaltyInfo wEnv wDB wAcc).acc.creationTime ≠ 0)
      ∧ ((load wEnv wDB none wAcc).ok = true →
          (load wEnv wDB none wAcc).acc.premiumRemainingDays
              ≤ (load wEnv wDB none wAcc).acc.premiumDaysPurchased
            ∧ (load wEnv wDB none wAcc).acc.creationTime ≠ 0)) :=
  ⟨by decide,
   setupLoyaltyInfo_establishes_invariant wEnv wDB wDB wAcc wAcc none (by decide)⟩

/-- C4: loyalty reconciliation is idempotent — on an already-consistent
record it changes nothing and issues no store event, and a second run
right after a first one is always such a no-op. -/
theorem setupLoyaltyInfo_idempotent (env : Env) (db db2 : DB) (acc : AccountInfo)
    (hnow : 0 < env.now) :
    ((acc.premiumRemainingDays ≤ acc.premiumDaysPurchased ∧ acc.creationTime ≠ 0) →
      setupLoyaltyInfo env db acc = { acc := acc, db := db, trace := [] })
    ∧ setupLoyaltyInfo env db2 (setupLoyaltyInfo env db acc).acc
        = { acc := (setupLoyaltyInfo env db acc).acc, db := db2, trace := [] } := by
  have hinv := loyalty_invariant env db acc hnow
  exact ⟨fun h => loyalty_noop env db acc h.1 h.2, loyalty_noop env db2 _ hinv.1 hinv.2⟩

/-- C4 witness: the theorem applied at a concrete input. -/
theorem setupLoyaltyInfo_idempotent_witness :
    (0 : Int) < wEnv.now
    ∧ (wAccCons.premiumRemainingDays ≤ wAccCons.premiumDaysPurchased
        ∧ wAccCons.creationTime ≠ 0)
    ∧ setupLoyaltyInfo wEnv wDB wAccCons = { acc := wAccCons, db := wDB, trace := [] }
    ∧ setupLoyaltyInfo wEnv wDB (setupLoyaltyInfo wEnv wDB wAccCons).acc
        = { acc := (setupLoyaltyInfo wEnv wDB wAccCons).acc, db := wDB, trace := [] } :=
  ⟨by decide, by decide,
   (setupLoyaltyInfo_idempotent wEnv wDB wDB wAccCons (by decide)).1 (by decide),
   (setupLoyaltyInfo_idempotent wEnv wDB wDB wAccCons (by decide)).2⟩

/-- C5 counterexample: `save` also writes the `creation` column, so a store
whose row disagrees with the record's `creationTime` has that column — one
the claim does not list — changed by the save. -/
theorem save_counterexample :
    (save wEnv wDB { wAcc with id := 7, creationTime := 222 }).db.accounts.map
        AccountRow.creation
      ≠ wDB.accounts.map AccountRow.creation := by
  decide

/-- C5 (amended): `save` writes exactly the columns `type`, `premdays`,
`lastday`, `creation`, `premdays_purchased` — from the record's
`accountType`, `premiumRemainingDays`, `premiumLastDay`, `creationTime`,
`premiumDaysPurchased` — keyed by the record's `id`: only rows with that id
change and their other columns are untouched; the store's outcome is
returned, a failure is logged, and exactly one write is issued (no
retry). -/
theorem save_writes_exactly (env : Env) (db : DB) (acc : AccountInfo) (r : AccountRow) :
    (save env db acc).ok = env.execOk
    ∧ (save env db acc).db.players = db.players
    ∧ (save env db acc).db.sessions = db.sessions
    ∧ (env.execOk = true →
        (save env db acc).db.accounts = db.accounts.map (updateAccountRow acc))
    ∧ (env.execOk = false → (save env db acc).db = db)
    ∧ (r.id ≠ acc.id → updateAccountRow acc r = r)
    ∧ (updateAccountRow acc r).id = r.id
    ∧ (updateAccountRow acc r).password = r.password
    ∧ (updateAccountRow acc r).email = r.email
    ∧ (updateAccountRow acc r).name = r.name
    ∧ (updateAccountRow acc r).coins = r.coins
    ∧ (updateAccountRow acc r).tournament_coins = r.tournament_coins
    ∧ (updateAccountRow acc r).coins_transferable = r.coins_transferable
    ∧ (r.id = acc.id →
        ((updateAccountRow acc r).type = acc.accountType
          ∧ (updateAccountRow acc r).premdays = acc.premiumRemainingDays
          ∧ (updateAccountRow acc r).lastday = acc.premiumLastDay
          ∧ (updateAccountRow acc r).creation = acc.creationTime
          ∧ (updateAccountRow acc r).premdays_purchased = acc.premiumDaysPurchased))
    ∧ (save env db acc).trace.count DBEvent.execQuery = 1
    ∧ ((save env db acc).trace.contains DBEvent.logError ↔ env.execOk = false) := by
  unfold save updateAccountRow
  cases h : env.execOk <;> by_cases hid : r.id = acc.id <;>
    simp [hid, List.count_cons]

/-- C5 witness: the theorem applied at a concrete input, its conditional
parts discharged there. -/
theorem save_writes_exactly_witness :
    (save wEnv wDB wAccCons).ok = true
    ∧ (save wEnv wDB wAccCons).db.accounts = wDB.accounts.map (updateAccountRow wAccCons)
    ∧ updateAccountRow wAccCons { wRow7 with id := 9 } = { wRow7 with id := 9 }
    ∧ (updateAccountRow wAccCons wRow7).premdays = wAccCons.premiumRemainingDays :=
  ⟨(save_writes_exactly wEnv wDB wAccCons wRow7).1,
   ((save_writes_exactly wEnv wDB wAccCons wRow7).2.2.2.1) (by decide),
   ((save_writes_exactly wEnv wDB wAccCons
        { wRow7 with id := 9 }).2.2.2.2.2.1) (by decide),
   (((save_writes_exactly wEnv wDB wAccCons
        wRow7).2.2.2.2.2.2.2.2.2.2.2.2.2.1) (by decide)).2.1⟩

/-- C6: a coin type outside the fixed mapping — not `Normal`, `Tournament`
or `Transferable` — makes both `getCoins` and `setCoins` fail with a logged
error, with no query issued to the store and the store unchanged. -/
theorem coins_unknown_type_rejected (env : Env) (db : DB) (id type amount : Nat)
    (h1 : type ≠ enumToValue CoinType.Normal)
    (h2 : type ≠ enumToValue CoinType.Tournament)
    (h3 : type ≠ enumToValue CoinType.Transferable) :
    getCoins db id type = { coins := none, trace := [DBEvent.logError] }
    ∧ setCoins env db id type amount
        = { ok := false, db := db, trace := [DBEvent.logError] } := by
  have hfind : coinTypeToColumn.find? (fun p => p.1 == type) = none := by
    rw [List.find?_eq_none]
    intro x hx
    simp only [coinTypeToColumn, List.mem_cons, List.not_mem_nil, or_false] at hx
    rcases hx with rfl | rfl | rfl <;>
      simp only [enumToValue] at h1 h2 h3 ⊢ <;> simp <;> omega
  unfold getCoins setCoins
  rw [hfind]
  exact ⟨rfl, rfl⟩

/-- C6 witness: the theorem applied at a concrete unknown coin type. -/
theorem coins_unknown_type_rejected_witness :
    (7 : Nat) ≠ enumToValue CoinType.Normal
    ∧ (7 : Nat) ≠ enumToValue CoinType.Tournament
    ∧ (7 : Nat) ≠ enumToValue CoinType.Transferable
    ∧ getCoins wDB 3 7 = { coins := none, trace := [DBEvent.logError] }
    ∧ setCoins wEnv wDB 3 7 100
        = { ok := false, db := wDB, trace := [DBEvent.logError] } :=
  ⟨by decide, by decide, by decide,
   (coins_unknown_type_rejected wEnv wDB 3 7 100 (by decide) (by decide) (by decide)).1,
   (coins_unknown_type_rejected wEnv wDB 3 7 100 (by decide) (by decide) (by decide)).2⟩

/-- C8: when the account query yields no result handle — for `loadByID` no
row with the id, for `loadByEmailOrName` no row with the email or name, for
`loadBySession` no session row keyed by the token's digest — the lookup
fails and the caller-supplied record and the store are left unchanged. -/
theorem lookups_no_result_leave_record_untouched (env : Env) (db : DB) (id : Nat)
    (oldProtocol : Bool) (emailOrName sessionKey : String) (acc : AccountInfo)
    (h1 : db.accounts.find? (fun r => r.id == id) = none)
    (h2 : db.accounts.find?
        (fun r => (if oldProtocol then r.name else r.email) == emailOrName) = none)
    (h3 : db.sessions.find? (fun s => s.id == env.sha1 sessionKey) = none) :
    loadByID env db id acc
        = { ok := false, acc := acc, db := db, trace := [DBEvent.storeQuery] }
    ∧ loadByEmailOrName env db oldProtocol emailOrName acc
        = { ok := false, acc := acc, db := db, trace := [DBEvent.storeQuery] }
    ∧ loadBySession env db sessionKey acc
        = { ok := false, acc := acc, db := db, trace := [DBEvent.storeQuery] } := by
  unfold loadByID loadByEmailOrName loadBySession queryByID queryByEmailOrName queryBySession
  rw [h1, h2, h3]
  exact ⟨rfl, rfl, rfl⟩

/-- C8 witness: the theorem applied at a concrete store holding no matching
row for any of the three lookups (token "abc" has no session row). -/
theorem lookups_no_result_leave_record_untouched_witness :
    wDBempty.accounts.find? (fun r => r.id == 7) = none
    ∧ wDBempty.sessions.find? (fun s => s.id == wEnv.sha1 "abc") = none
    ∧ loadBySession wEnv wDBempty "abc" wAcc
        = { ok := false, acc := wAcc, db := wDBempty, trace := [DBEvent.storeQuery] }
    ∧ loadByID wEnv wDBempty 7 wAcc
        = { ok := false, acc := wAcc, db := wDBempty, trace := [DBEvent.storeQuery] } :=
  ⟨by decide, by decide,
   (lookups_no_result_leave_record_untouched wEnv wDBempty 7 true "x" "abc" wAcc
      (by decide) (by decide) (by decide)).2.2,
   (lookups_no_result_leave_record_untouched wEnv wDBempty 7 true "x" "abc" wAcc
      (by decide) (by decide) (by decide)).1⟩

/-- C9: `getCharacterByAccountIdAndName` reports true exactly when one
player row matches the account id and name — false when none or several
match — with no filter on the row's deletion state, and it issues no write
query. -/
theorem getCharacterByAccountIdAndName_iff (db : DB) (id : Nat) (name : String) :
    ((getCharacterByAccountIdAndName db id name).ok = true
      ↔ (db.players.filter
          (fun p => decide (p.account_id = id ∧ p.name = name))).length = 1)
    ∧ (getCharacterByAccountIdAndName db id name).trace.count DBEvent.execQuery = 0 := by
  have hpred : (fun p : PlayerRow => p.account_id == id && p.name == name)
      = (fun p : PlayerRow => decide (p.account_id = id ∧ p.name = name)) := by
    funext p
    by_cases ha : p.account_id = id <;> by_cases hb : p.name = name <;> simp [ha, hb]
  simp only [getCharacterByAccountIdAndName]
  rw [hpred]
  split
  · next hemp =>
    rw [List.isEmpty_iff] at hemp
    rw [hemp]
    simp
  · next hemp =>
    simp

/-- `save` never touches the `players` table. -/
theorem save_players_frame (env : Env) (db : DB) (acc : AccountInfo) :
    (save env db acc).db.players = db.players := by
  unfold save
  split <;> simp

/-- C2: on every successful load the populated `premiumRemainingDays` is
exactly `max(0, floor((premiumLastDay - now) / 86400))` — zero at or before
expiry and through the 86399th second ahead, one from 86400 seconds ahead —
recomputed from `premiumLastDay` and the clock, never read from storage. -/
theorem load_premiumRemainingDays_formula (env : Env) (db : DB)
    (res : Option AccountResultRow) (acc : AccountInfo)
    (h : (load env db res acc).ok = true) :
    ((load env db res acc).acc.premiumRemainingDays : Int)
      = premiumRemainingDaysSpecFormula
          (load env db res acc).acc.premiumLastDay env.now := by
  cases res with
  | none => simp [load] at h
  | some row =>
    obtain ⟨hlast, hrem, _⟩ := load_some_acc_fields env db row acc
    rw [hlast, hrem]
    unfold mapAccountColumns premiumRemainingDaysSpecFormula
    dsimp only
    rw [Int.fdiv_eq_ediv _ (by norm_num)]
    split
    · next hgt => omega
    · next hgt => omega

/-- C2 witness: the theorem applied at a concrete successful load. -/
theorem load_premiumRemainingDays_formula_witness :
    (load wEnv wDB (some (accountRowToResult wRow7 0)) wAcc).ok = true
    ∧ ((load wEnv wDB (some (accountRowToResult wRow7 0)) wAcc).acc.premiumRemainingDays : Int)
        = premiumRemainingDaysSpecFormula
            (load wEnv wDB (some (accountRowToResult wRow7 0)) wAcc).acc.premiumLastDay
            wEnv.now :=
  ⟨by decide,
   load_premiumRemainingDays_formula wEnv wDB (some (accountRowToResult wRow7 0)) wAcc
     (by decide)⟩

/-- C1: loading an account stored with `lastday` exactly five days
(432000 s) ahead of the clock, nothing purchased and creation unset,
succeeds (given the account query matched and the player fetch returns a
handle) with `premiumRemainingDays = 5`, `premiumDaysPurchased` raised
to 5, `creationTime` set to the current time, and exactly one write-back
issued during the load. -/
theorem loadByID_loyalty_scenario (env : Env) (db : DB) (accId : Nat)
    (acc : AccountInfo) (row : AccountRow)
    (hrow : db.accounts.find? (fun r => r.id == accId) = some row)
    (hlast : row.lastday = env.now + 432000)
    (hpur : row.premdays_purchased = 0)
    (hcre : row.creation = 0)
    (hnow : 0 < env.now)
    (hplayers : playerQueryRows db row.id ≠ []) :
    (loadByID env db accId acc).ok = true
    ∧ (loadByID env db accId acc).acc.premiumRemainingDays = 5
    ∧ (loadByID env db accId acc).acc.premiumDaysPurchased = 5
    ∧ ((loadByID env db accId acc).acc.creationTime : Int) = env.now
    ∧ (loadByID env db accId acc).trace.count DBEvent.execQuery = 1 := by
  have hAeq : mapAccountColumns env (accountRowToResult row 0) acc
      = { id := row.id, accountType := row.type, premiumLastDay := row.lastday
          sessionExpires := 0, premiumDaysPurchased := 0, creationTime := 0
          premiumRemainingDays := 5, players := acc.players } := by
    unfold mapAccountColumns accountRowToResult
    dsimp only
    rw [hpur, hcre]
    split
    · next hgt =>
      have h5 : (row.lastday - env.now).toNat / 86400 = 5 := by omega
      rw [h5]
    · next hgt => exact absurd (by omega) hgt
  have hsetup : setupLoyaltyInfo env db (mapAccountColumns env (accountRowToResult row 0) acc)
      = { acc := { id := row.id, accountType := row.type, premiumLastDay := row.lastday
                   sessionExpires := 0, premiumDaysPurchased := 5
                   creationTime := env.now.toNat
                   premiumRemainingDays := 5, players := acc.players }
          db := (save env db
                  { id := row.id, accountType := row.type, premiumLastDay := row.lastday
                    sessionExpires := 0, premiumDaysPurchased := 5
                    creationTime := env.now.toNat
                    premiumRemainingDays := 5, players := acc.players }).db
          trace := (save env db
                  { id := row.id, accountType := row.type, premiumLastDay := row.lastday
                    sessionExpires := 0, premiumDaysPurchased := 5
                    creationTime := env.now.toNat
                    premiumRemainingDays := 5, players := acc.players }).trace } := by
    rw [hAeq]
    unfold setupLoyaltyInfo
    rw [if_neg (by simp)]
    rfl
  have hout : loadByID env db accId acc
      = load env db (some (accountRowToResult row 0)) acc := by
    unfold loadByID queryByID
    rw [hrow]
    rfl
  have hfinal : loadByID env db accId acc
      = { ok := true
          acc := { id := row.id, accountType := row.type, premiumLastDay := row.lastday
                   sessionExpires := 0, premiumDaysPurchased := 5
                   creationTime := env.now.toNat, premiumRemainingDays := 5
                   players := processPlayerRows acc.players (playerQueryRows db row.id) }
          db := (save env db
                  { id := row.id, accountType := row.type, premiumLastDay := row.lastday
                    sessionExpires := 0, premiumDaysPurchased := 5
                    creationTime := env.now.toNat
                    premiumRemainingDays := 5, players := acc.players }).db
          trace := DBEvent.storeQuery ::
            ((save env db
                  { id := row.id, accountType := row.type, premiumLastDay := row.lastday
                    sessionExpires := 0, premiumDaysPurchased := 5
                    creationTime := env.now.toNat
                    premiumRemainingDays := 5, players := acc.players }).trace
              ++ [DBEvent.storeQuery]) } := by
    rw [hout, load_some_eq, hsetup]
    dsimp only
    simp only [loadAccountPlayers]
    rw [playerQueryRows_congr (save env db
          { id := row.id, accountType := row.type, premiumLastDay := row.lastday
            sessionExpires := 0, premiumDaysPurchased := 5
            creationTime := env.now.toNat
            premiumRemainingDays := 5, players := acc.players }).db db row.id
        (save_players_frame env db _)]
    rw [if_neg (by rw [List.isEmpty_iff]; exact hplayers)]
  rw [hfinal]
  refine ⟨rfl, rfl, rfl, by dsimp only; omega, ?_⟩
  dsimp only
  cases henv : env.execOk <;> simp [save, henv, List.count_cons]

/-- C1 witness: the theorem applied at a concrete store (`wRow7` has
`lastday = wEnv.now + 432000`, nothing purchased, creation unset; account 7
has player rows). -/
theorem loadByID_loyalty_scenario_witness :
    wDB.accounts.find? (fun r => r.id == 7) = some wRow7
    ∧ wRow7.lastday = wEnv.now + 432000
    ∧ wRow7.premdays_purchased = 0
    ∧ wRow7.creation = 0
    ∧ (0 : Int) < wEnv.now
    ∧ playerQueryRows wDB wRow7.id ≠ []
    ∧ ((loadByID wEnv wDB 7 wAcc).ok = true
        ∧ (loadByID wEnv wDB 7 wAcc).acc.premiumRemainingDays = 5
        ∧ (loadByID wEnv wDB 7 wAcc).acc.premiumDaysPurchased = 5
        ∧ ((loadByID wEnv wDB 7 wAcc).acc.creationTime : Int) = wEnv.now
        ∧ (loadByID wEnv wDB 7 wAcc).trace.count DBEvent.execQuery = 1) :=
  ⟨by decide, by decide, by decide, by decide, by decide, by decide,
   loadByID_loyalty_scenario wEnv wDB 7 wAcc wRow7 (by decide) (by decide) (by decide)
     (by decide) (by decide) (by decide)⟩

/-- `loadAccountPlayers` reads the store only through the `players`
table. -/
theorem loadAccountPlayers_congr (db1 db2 : DB) (acc : AccountInfo)
    (h : db1.players = db2.players) :
    loadAccountPlayers db1 acc = loadAccountPlayers db2 acc := by
  unfold loadAccountPlayers
  rw [playerQueryRows_congr db1 db2 acc.id h]

/-- C10: the loyalty write-back's outcome is invisible to `load` — the
returned success flag and record are the same whatever the store reports
for the write, and when the write fails (`execOk = false`) a load whose
account query matched and whose player fetch has rows still succeeds, with
the corrected (reconciled) values kept in the in-memory record. -/
theorem load_ignores_save_outcome (env : Env) (db : DB)
    (res : Option AccountResultRow) (acc : AccountInfo) (row : AccountResultRow)
    (b : Bool) (_hfail : env.execOk = false) (hnow : 0 < env.now)
    (hres : res = some row) (hrows : playerQueryRows db row.id ≠ []) :
    ((load { env with execOk := b } db res acc).ok = (load env db res acc).ok
      ∧ (load { env with execOk := b } db res acc).acc = (load env db res acc).acc)
    ∧ ((load env db res acc).ok = true
        ∧ (load env db res acc).acc.premiumRemainingDays
            ≤ (load env db res acc).acc.premiumDaysPurchased
        ∧ (load env db res acc).acc.creationTime ≠ 0) := by
  subst hres
  have hmap : mapAccountColumns { env with execOk := b } row acc
      = mapAccountColumns env row acc := rfl
  have hdbp := (loyalty_db_frame env db (mapAccountColumns env row acc)).1
  have hdbp2 := (loyalty_db_frame { env with execOk := b } db
      (mapAccountColumns env row acc)).1
  have hacc := loyalty_acc_execOk env db (mapAccountColumns env row acc) b
  have hlap : loadAccountPlayers
        (setupLoyaltyInfo { env with execOk := b } db (mapAccountColumns env row acc)).db
        (setupLoyaltyInfo { env with execOk := b } db (mapAccountColumns env row acc)).acc
      = loadAccountPlayers
        (setupLoyaltyInfo env db (mapAccountColumns env row acc)).db
        (setupLoyaltyInfo env db (mapAccountColumns env row acc)).acc := by
    rw [hacc]
    exact loadAccountPlayers_congr _ _ _ (by rw [hdbp2, hdbp])
  have hid : (setupLoyaltyInfo env db (mapAccountColumns env row acc)).acc.id = row.id := by
    rw [(loyalty_acc_frame env db (mapAccountColumns env row acc)).1]
    rfl
  have hok : (load env db (some row) acc).ok = true := by
    rw [load_some_eq]
    dsimp only
    simp only [loadAccountPlayers]
    rw [hid, playerQueryRows_congr _ db row.id hdbp]
    rw [if_neg (by rw [List.isEmpty_iff]; exact hrows)]
  obtain ⟨p1, p2, p3, p4, p5, p6, p7⟩ :=
    players_acc_frame (setupLoyaltyInfo env db (mapAccountColumns env row acc)).db
      (setupLoyaltyInfo env db (mapAccountColumns env row acc)).acc
  obtain ⟨i1, i2⟩ := loyalty_invariant env db (mapAccountColumns env row acc) hnow
  refine ⟨⟨?_, ?_⟩, hok, ?_, ?_⟩
  · rw [load_some_eq, load_some_eq]
    dsimp only
    rw [hmap, hlap]
  · rw [load_some_eq, load_some_eq]
    dsimp only
    rw [hmap, hlap]
  · rw [load_some_eq]
    dsimp only
    rw [p7, p5]
    exact i1
  · rw [load_some_eq]
    dsimp only
    rw [p6]
    exact i2

/-- C10 witness: the theorem applied at a concrete store with the
write-back environment reporting failure. -/
theorem load_ignores_save_outcome_witness :
    wEnvFail.execOk = false
    ∧ (0 : Int) < wEnvFail.now
    ∧ playerQueryRows wDB (accountRowToResult wRow7 0).id ≠ []
    ∧ (((load { wEnvFail with execOk := true } wDB (some (accountRowToResult wRow7 0)) wAcc).ok
          = (load wEnvFail wDB (some (accountRowToResult wRow7 0)) wAcc).ok
        ∧ (load { wEnvFail with execOk := true } wDB (some (accountRowToResult wRow7 0)) wAcc).acc
          = (load wEnvFail wDB (some (accountRowToResult wRow7 0)) wAcc).acc)
      ∧ ((load wEnvFail wDB (some (accountRowToResult wRow7 0)) wAcc).ok = true
        ∧ (load wEnvFail wDB (some (accountRowToResult wRow7 0)) wAcc).acc.premiumRemainingDays
            ≤ (load wEnvFail wDB (some (accountRowToResult wRow7 0)) wAcc).acc.premiumDaysPurchased
        ∧ (load wEnvFail wDB (some (accountRowToResult wRow7 0)) wAcc).acc.creationTime ≠ 0)) :=
  ⟨by decide, by decide, by decide,
   load_ignores_save_outcome wEnvFail wDB (some (accountRowToResult wRow7 0)) wAcc
     (accountRowToResult wRow7 0) true (by decide) (by decide) rfl (by decide)⟩

/-- Membership in the player-row fold: an entry is in the result exactly
when it was already present, or when its name is fresh, its stored deletion
stamp is zero, and some surviving row of the input carries its name. -/
theorem mem_processPlayerRows (rows : List PlayerRow) :
    ∀ (ps : List (String × Nat)) (e : String × Nat),
      e ∈ processPlayerRows ps rows
        ↔ e ∈ ps ∨ ((∀ x ∈ ps, x.1 ≠ e.1) ∧ e.2 = 0
            ∧ ∃ p ∈ rows, p.deletion = 0 ∧ p.name = e.1) := by
  induction rows with
  | nil =>
    intro ps e
    simp [processPlayerRows]
  | cons p rest ih =>
    intro ps e
    rw [show processPlayerRows ps (p :: rest)
        = processPlayerRows
            (if p.deletion ≠ 0 then ps else tryEmplace ps p.name p.deletion) rest from rfl]
    by_cases hdel : p.deletion = 0
    · rw [if_neg (by simp [hdel])]
      unfold tryEmplace
      by_cases hpres : ∃ x ∈ ps, x.1 = p.name
      · rw [if_pos (by simpa using hpres), ih ps e]
        constructor
        · rintro (he | ⟨hfr, h0, q, hq, hq0, hqn⟩)
          · exact Or.inl he
          · exact Or.inr ⟨hfr, h0, q, List.mem_cons_of_mem p hq, hq0, hqn⟩
        · rintro (he | ⟨hfr, h0, q, hq, hq0, hqn⟩)
          · exact Or.inl he
          · rcases List.mem_cons.mp hq with heq | hq2
            · obtain ⟨x, hx, hxn⟩ := hpres
              subst heq
              exact absurd (hxn.trans hqn) (hfr x hx)
            · exact Or.inr ⟨hfr, h0, q, hq2, hq0, hqn⟩
      · rw [if_neg (by simpa using hpres), ih (ps ++ [(p.name, p.deletion)]) e]
        constructor
        · rintro (hin | ⟨hfr, h0, q, hq, hq0, hqn⟩)
          · rcases List.mem_append.mp hin with hps | hone
            · exact Or.inl hps
            · have he : e = (p.name, p.deletion) := by simpa using hone
              refine Or.inr ⟨?_, ?_, p, List.mem_cons_self p rest, hdel, ?_⟩
              · intro x hx
                rw [he]
                dsimp only
                intro hx1
                exact hpres ⟨x, hx, hx1⟩
              · rw [he]
                exact hdel
              · rw [he]
          · have hfr' : ∀ x ∈ ps, x.1 ≠ e.1 :=
              fun x hx => hfr x (List.mem_append_left _ hx)
            exact Or.inr ⟨hfr', h0, q, List.mem_cons_of_mem p hq, hq0, hqn⟩
        · rintro (hps | ⟨hfr, h0, q, hq, hq0, hqn⟩)
          · exact Or.inl (List.mem_append_left _ hps)
          · rcases List.mem_cons.mp hq with heq | hq2
            · subst heq
              refine Or.inl (List.mem_append_right _ ?_)
              have he : e = (q.name, q.deletion) := by
                rw [Prod.ext_iff]
                exact ⟨hqn.symm, by rw [h0, hq0]⟩
              rw [he, hq0]
              exact List.mem_singleton_self _
            · by_cases hname : p.name = e.1
              · refine Or.inl (List.mem_append_right _ ?_)
                have he : e = (p.name, p.deletion) := by
                  rw [Prod.ext_iff]
                  exact ⟨hname.symm, by rw [h0, hdel]⟩
                rw [he]
                exact List.mem_singleton_self _
              · refine Or.inr ⟨?_, h0, q, hq2, hq0, hqn⟩
                intro x hx
                rcases List.mem_append.mp hx with hxps | hxone
                · exact hfr x hxps
                · have hx' : x = (p.name, p.deletion) := by simpa using hxone
                  rw [hx']
                  exact hname
    · rw [if_pos hdel, ih ps e]
      constructor
      · rintro (he | ⟨hfr, h0, q, hq, hq0, hqn⟩)
        · exact Or.inl he
        · exact Or.inr ⟨hfr, h0, q, List.mem_cons_of_mem p hq, hq0, hqn⟩
      · rintro (he | ⟨hfr, h0, q, hq, hq0, hqn⟩)
        · exact Or.inl he
        · rcases List.mem_cons.mp hq with heq | hq2
          · subst heq
            exact absurd hq0 hdel
          · exact Or.inr ⟨hfr, h0, q, hq2, hq0, hqn⟩

/-- Sortedness of the player-row fold: starting from a strictly
name-sorted accumulator every element of which precedes every input row,
folding name-sorted rows keeps the accumulator strictly name-sorted. -/
theorem pairwise_processPlayerRows (rows : List PlayerRow) :
    ∀ ps : List (String × Nat),
      ps.Pairwise (fun a b => a.1.data < b.1.data) →
      (∀ a ∈ ps, ∀ q ∈ rows, a.1.data ≤ q.name.data) →
      rows.Pairwise (fun a b => a.name.data ≤ b.name.data) →
      (processPlayerRows ps rows).Pairwise (fun a b => a.1.data < b.1.data) := by
  induction rows with
  | nil =>
    intro ps h _ _
    simpa [processPlayerRows] using h
  | cons p rest ih =>
    intro ps hps hle hrows
    rw [show processPlayerRows ps (p :: rest)
        = processPlayerRows
            (if p.deletion ≠ 0 then ps else tryEmplace ps p.name p.deletion) rest from rfl]
    have hrest : rest.Pairwise (fun a b => a.name.data ≤ b.name.data) :=
      (List.pairwise_cons.mp hrows).2
    have hhead : ∀ q ∈ rest, p.name.data ≤ q.name.data :=
      (List.pairwise_cons.mp hrows).1
    by_cases hdel : p.deletion = 0
    · rw [if_neg (by simp [hdel])]
      unfold tryEmplace
      by_cases hpres : ∃ x ∈ ps, x.1 = p.name
      · rw [if_pos (by simpa using hpres)]
        exact ih ps hps (fun a ha q hq => hle a ha q (List.mem_cons_of_mem p hq)) hrest
      · rw [if_neg (by simpa using hpres)]
        apply ih
        · rw [List.pairwise_append]
          refine ⟨hps, List.pairwise_singleton _ _, ?_⟩
          intro a ha b hb
          have hb' : b = (p.name, p.deletion) := by simpa using hb
          rw [hb']
          dsimp only
          have h1 : a.1.data ≤ p.name.data := hle a ha p (List.mem_cons_self p rest)
          have h3 : a.1.data ≠ p.name.data :=
            fun hd => hpres ⟨a, ha, String.ext hd⟩
          exact lt_of_le_of_ne h1 h3
        · intro a ha q hq
          rcases List.mem_append.mp ha with hps' | hone
          · exact hle a hps' q (List.mem_cons_of_mem p hq)
          · have ha' : a = (p.name, p.deletion) := by simpa using hone
            rw [ha']
            exact hhead q hq
        · exact hrest
    · rw [if_pos hdel]
      exact ih ps hps (fun a ha q hq => hle a ha q (List.mem_cons_of_mem p hq)) hrest

/-- Membership in the sorted, account-filtered player query. -/
theorem mem_playerQueryRows (db : DB) (accId : Nat) (q : PlayerRow) :
    q ∈ playerQueryRows db accId ↔ q ∈ db.players ∧ q.account_id = accId := by
  unfold playerQueryRows
  rw [(List.perm_insertionSort _ _).mem_iff, List.mem_filter]
  simp

/-- C7: `loadAccountPlayers` puts into a fresh record's player set exactly
the fetched rows whose deletion stamp is zero — soft-deleted rows are
skipped — and the set is in strictly ascending name order (ascending
insertion, first-insert-wins on duplicate names). -/
theorem loadAccountPlayers_filters_and_sorts (db : DB) (acc : AccountInfo)
    (hemp : acc.players = []) (hok : (loadAccountPlayers db acc).ok = true) :
    (∀ name del, (name, del) ∈ (loadAccountPlayers db acc).acc.players
        ↔ (del = 0 ∧ ∃ p ∈ db.players,
            p.account_id = acc.id ∧ p.deletion = 0 ∧ p.name = name))
    ∧ (loadAccountPlayers db acc).acc.players.Pairwise
        (fun a b => a.1.data < b.1.data) := by
  by_cases hre : (playerQueryRows db acc.id).isEmpty = true
  · exfalso
    simp only [loadAccountPlayers] at hok
    rw [if_pos hre] at hok
    exact Bool.false_ne_true hok
  · have hres : (loadAccountPlayers db acc).acc.players
        = processPlayerRows acc.players (playerQueryRows db acc.id) := by
      simp only [loadAccountPlayers]
      rw [if_neg hre]
    rw [hres, hemp]
    constructor
    · intro name del
      rw [mem_processPlayerRows (playerQueryRows db acc.id) [] (name, del)]
      constructor
      · rintro (h | ⟨hfr, h0, q, hq, hq0, hqn⟩)
        · exact absurd h (List.not_mem_nil _)
        · obtain ⟨hqdb, hqacc⟩ := (mem_playerQueryRows db acc.id q).mp hq
          exact ⟨h0, q, hqdb, hqacc, hq0, hqn⟩
      · rintro ⟨h0, q, hqdb, hqacc, hq0, hqn⟩
        exact Or.inr ⟨fun x hx => absurd hx (List.not_mem_nil x), h0, q,
          (mem_playerQueryRows db acc.id q).mpr ⟨hqdb, hqacc⟩, hq0, hqn⟩
    · apply pairwise_processPlayerRows
      · exact List.Pairwise.nil
      · intro a ha
        exact absurd ha (List.not_mem_nil a)
      · exact List.sorted_insertionSort _ _

/-- C7 witness: the theorem applied at a concrete store where account 7
has one surviving and one soft-deleted player row. -/
theorem loadAccountPlayers_filters_and_sorts_witness :
    ({ wAcc with id := 7 } : AccountInfo).players = []
    ∧ (loadAccountPlayers wDB { wAcc with id := 7 }).ok = true
    ∧ ((∀ name del,
          (name, del) ∈ (loadAccountPlayers wDB { wAcc with id := 7 }).acc.players
            ↔ (del = 0 ∧ ∃ p ∈ wDB.players,
                p.account_id = ({ wAcc with id := 7 } : AccountInfo).id
                  ∧ p.deletion = 0 ∧ p.name = name))
        ∧ (loadAccountPlayers wDB { wAcc with id := 7 }).acc.players.Pairwise
            (fun a b => a.1.data < b.1.data)) :=
  ⟨by decide, by decide,
   loadAccountPlayers_filters_and_sorts wDB { wAcc with id := 7 } (by decide) (by decide)⟩

end AccountRepositoryDB
